import Mathlib

/-!
Shallow embedding of the OCR text-structuring core of the repository:
the line grouper, document classifier, key-value extractor and
coordinate mappers.  JavaScript strings are modelled as `List Char`
(ASCII fragment: the keywords and separators used by the code are all
ASCII), JavaScript numbers as exact rationals `ℚ`, and JavaScript's
stable `Array.prototype.sort` as insertion sort (which is stable).
-/

namespace Highlight

/-! ### Data model (src/types) -/

/-- Axis-aligned rectangle in some coordinate space. -/
structure BoundingBox where
  x : ℚ
  y : ℚ
  width : ℚ
  height : ℚ
deriving DecidableEq

/-- Width/height of an image or of the on-screen display area. -/
structure Size where
  width : ℚ
  height : ℚ
deriving DecidableEq

/-- A single OCR-recognized text unit (`TextBlock` in src/types). -/
structure TextBlock where
  id : Nat
  text : List Char
  boundingBox : BoundingBox
  confidence : ℚ
  correctedText : Option (List Char) := none
deriving DecidableEq

/-- JavaScript `b.correctedText || b.text`: the corrected text when it is
present and non-empty (the empty string is falsy), else the raw text. -/
def effText (b : TextBlock) : List Char :=
  match b.correctedText with
  | some c => if c = [] then b.text else c
  | none => b.text

/-- JavaScript `Math.abs`, kept executable on `ℚ`. -/
def absQ (q : ℚ) : ℚ := if q < 0 then -q else q

/-! ### Character and string utilities (ASCII model of the JS built-ins) -/

/-- JavaScript `\s` restricted to the ASCII whitespace characters. -/
def isWs (c : Char) : Bool :=
  c == ' ' || c == '\t' || c == '\n' || c == '\r' || c == '\x0b' || c == '\x0c'

/-- JavaScript `String.prototype.trim`. -/
def trimWs (l : List Char) : List Char :=
  ((l.dropWhile isWs).reverse.dropWhile isWs).reverse

/-- JavaScript `hay.includes(needle)`. -/
def includesL : List Char → List Char → Bool
  | [], needle => needle.isEmpty
  | c :: rest, needle => needle.isPrefixOf (c :: rest) || includesL rest needle

/-- JavaScript `String.prototype.toLowerCase` on ASCII text. -/
def lowerL (l : List Char) : List Char := l.map Char.toLower

/-- `hasDecimal l` holds iff the regex `\d+[.,]\d{2}` matches somewhere in
`l`: such an unanchored match exists iff some window is
digit, separator, digit, digit. -/
def hasDecimal : List Char → Bool
  | d :: sep :: a :: b :: rest =>
    (d.isDigit && (sep == '.' || sep == ',') && a.isDigit && b.isDigit)
      || hasDecimal (sep :: a :: b :: rest)
  | _ => false

/-- Consume exactly `n` digits, returning the remainder. -/
def matchDigits : Nat → List Char → Option (List Char)
  | 0, l => some l
  | _ + 1, [] => none
  | n + 1, c :: rest => if c.isDigit then matchDigits n rest else none

/-- A character matched by the class `[-.\s]` of the phone regex. -/
def isPhoneSep (c : Char) : Bool := c == '-' || c == '.' || isWs c

/-- The two ways the optional `[-.\s]?` can consume input at `l`. -/
def optSepSplits (l : List Char) : List (List Char) :=
  match l with
  | c :: rest => if isPhoneSep c then [rest, l] else [l]
  | [] => [l]

/-- The phone regex `\d{3}[-.\s]?\d{3}[-.\s]?\d{4}` matches at the head
of `l` (trailing input is allowed, as with an unanchored regex test). -/
def phoneAt (l : List Char) : Bool :=
  match matchDigits 3 l with
  | none => false
  | some r1 =>
    (optSepSplits r1).any fun r2 =>
      match matchDigits 3 r2 with
      | none => false
      | some r3 => (optSepSplits r3).any fun r4 => (matchDigits 4 r4).isSome

/-- `/\d{3}[-.\s]?\d{3}[-.\s]?\d{4}/.test(l)`: the phone regex matches
somewhere in `l`. -/
def phoneTest : List Char → Bool
  | [] => false
  | c :: rest => phoneAt (c :: rest) || phoneTest rest

/-- JavaScript `text.split('\n')`. -/
def splitNl : List Char → List (List Char)
  | [] => [[]]
  | c :: rest =>
    match splitNl rest with
    | [] => [[]]
    | line :: r => if c == '\n' then [] :: line :: r else (c :: line) :: r

/-! ### LineGrouper (`groupIntoLines` in the preprocessing module) -/

/-- Comparator `(a, b) => a.boundingBox.y - b.boundingBox.y`. -/
def byY (a b : TextBlock) : Prop := a.boundingBox.y ≤ b.boundingBox.y

/-- Comparator `(a, b) => a.boundingBox.x - b.boundingBox.x`. -/
def byX (a b : TextBlock) : Prop := a.boundingBox.x ≤ b.boundingBox.x

instance : DecidableRel byY := fun a b =>
  inferInstanceAs (Decidable (a.boundingBox.y ≤ b.boundingBox.y))

instance : DecidableRel byX := fun a b =>
  inferInstanceAs (Decidable (a.boundingBox.x ≤ b.boundingBox.x))

instance : IsTotal TextBlock byY := ⟨fun a b => le_total a.boundingBox.y b.boundingBox.y⟩

instance : IsTotal TextBlock byX := ⟨fun a b => le_total a.boundingBox.x b.boundingBox.x⟩

instance : IsTrans TextBlock byY := ⟨fun _ _ _ h h' => le_trans h h'⟩

instance : IsTrans TextBlock byX := ⟨fun _ _ _ h h' => le_trans h h'⟩

/-- `[...blocks].sort((a, b) => a.boundingBox.y - b.boundingBox.y)`. -/
def sortByY (blocks : List TextBlock) : List TextBlock := List.insertionSort byY blocks

/-- `line.blocks.sort((a, b) => a.boundingBox.x - b.boundingBox.x)`. -/
def sortByX (blocks : List TextBlock) : List TextBlock := List.insertionSort byX blocks

/-- The `Line` interface of the preprocessing module: the reference `y`
(set when the line is opened and never updated) and the member blocks. -/
structure Line where
  y : ℚ
  blocks : List TextBlock
deriving DecidableEq

/-- Finalizing a line sorts its members by ascending `x`. -/
def finalizeLine (L : Line) : Line := { y := L.y, blocks := sortByX L.blocks }

/-- The loop of `groupIntoLines`: folds the remaining (y-sorted) blocks
into the current line, opening a new line whenever the next block's `y`
differs from the current line's pinned reference `y` by more than the
threshold; a line is finalized (x-sorted) when it is closed. -/
def groupAux (t : ℚ) (cur : Line) : List TextBlock → List Line
  | [] => [finalizeLine cur]
  | b :: rest =>
    if absQ (b.boundingBox.y - cur.y) ≤ t then
      groupAux t { y := cur.y, blocks := cur.blocks ++ [b] } rest
    else
      finalizeLine cur :: groupAux t { y := b.boundingBox.y, blocks := [b] } rest

/-- `groupIntoLines(blocks, lineThreshold = 15)` from the preprocessing
module. -/
def groupIntoLines (blocks : List TextBlock) (lineThreshold : ℚ := 15) : List Line :=
  match sortByY blocks with
  | [] => []
  | b :: rest => groupAux lineThreshold { y := b.boundingBox.y, blocks := [b] } rest

/-- Same loop without the within-line x-sorting, used to reason about
line membership (the members appear in processing order). -/
def rawAux (t : ℚ) (cur : Line) : List TextBlock → List Line
  | [] => [cur]
  | b :: rest =>
    if absQ (b.boundingBox.y - cur.y) ≤ t then
      rawAux t { y := cur.y, blocks := cur.blocks ++ [b] } rest
    else
      cur :: rawAux t { y := b.boundingBox.y, blocks := [b] } rest

/-- `groupIntoLines` before within-line sorting. -/
def rawGroupIntoLines (blocks : List TextBlock) (lineThreshold : ℚ := 15) : List Line :=
  match sortByY blocks with
  | [] => []
  | b :: rest => rawAux lineThreshold { y := b.boundingBox.y, blocks := [b] } rest

/-! ### DocumentClassifier (`detectDocumentType`) -/

def kwTotal : List Char := "total".data

def kwSubtotal : List Char := "subtotal".data

def kwDollar : List Char := "$".data

def kwAt : List Char := "@".data

def kwEmail : List Char := "email".data

def kwPhone : List Char := "phone".data

def kwDear : List Char := "dear ".data

def kwSincerely : List Char := "sincerely".data

def kwRegards : List Char := "regards".data

/-- The receipt rule: (contains "total" or "subtotal", case-insensitively)
and (contains "$" or matches `\d+[.,]\d{2}`). -/
def receiptCheck (text : List Char) : Bool :=
  let lowerText := lowerL text
  (includesL lowerText kwTotal || includesL lowerText kwSubtotal) &&
    (includesL lowerText kwDollar || hasDecimal text)

/-- The business-card rule: (contains "@" or "email") and (phone-number
regex matches or contains "phone"). -/
def businessCardCheck (text : List Char) : Bool :=
  let lowerText := lowerL text
  (includesL lowerText kwAt || includesL lowerText kwEmail) &&
    (phoneTest text || includesL lowerText kwPhone)

/-- The menu rule: at least 3 newline-delimited lines each match
`\$?\d+[.,]\d{2}`.  The optional leading `\$?` does not change whether a
match exists, so the per-line test is `hasDecimal`. -/
def menuCheck (text : List Char) : Bool :=
  decide (3 ≤ ((splitNl text).filter hasDecimal).length)

/-- The letter rule: contains "dear ", "sincerely" or "regards"
(case-insensitively). -/
def letterCheck (text : List Char) : Bool :=
  let lowerText := lowerL text
  includesL lowerText kwDear || includesL lowerText kwSincerely ||
    includesL lowerText kwRegards

/-- `detectDocumentType` from the preprocessing module: the four rules in
priority order, first match wins, default tag "document". -/
def detectDocumentType (text : List Char) : String :=
  if receiptCheck text then "receipt"
  else if businessCardCheck text then "business_card"
  else if menuCheck text then "menu_or_price_list"
  else if letterCheck text then "letter"
  else "document"

/-! ### Key-value extraction (`detectKeyValue`, `extractKeyInfo`) -/

/-- A character matched by `.` in a JavaScript regex without the `s`
flag (anything but a line terminator; the ASCII ones are `\n`, `\r`). -/
def isDot (c : Char) : Bool := !(c == '\n' || c == '\r')

/-- Split at the first colon: `some (k, rest)` with `l = k ++ ':' :: rest`
when `l` contains a colon (`k` may be empty), else `none`. -/
def splitAtColon : List Char → Option (List Char × List Char)
  | [] => none
  | c :: rest =>
    if c == ':' then some ([], rest)
    else (splitAtColon rest).map fun p => (c :: p.1, p.2)

/-- The `^([^:]+):` part of the colon regex: the key is everything before
the first colon and must be non-empty. -/
def firstColonSplit (l : List Char) : Option (List Char × List Char) :=
  match splitAtColon l with
  | some ([], _) => none
  | other => other

/-- The `\s*(.+)$` part of the colon regex applied after the colon, with
the backtracking of the greedy `\s*`: prefer treating a whitespace
character as part of `\s*`; fall back to starting the `(.+)` capture at
it.  Returns the capture of `(.+)` on success. -/
def colonVal : List Char → Option (List Char)
  | [] => none
  | c :: rest =>
    if isWs c then
      match colonVal rest with
      | some v => some v
      | none => if (c :: rest).all isDot then some (c :: rest) else none
    else
      if (c :: rest).all isDot then some (c :: rest) else none

/-- Exact match of `\d+[.,]\d{2}` against the whole of `l`. -/
def digitsSepDD (l : List Char) : Bool :=
  match l.reverse with
  | b :: a :: s :: ds =>
    b.isDigit && a.isDigit && (s == '.' || s == ',') && !ds.isEmpty && ds.all Char.isDigit
  | _ => false

/-- Exact match of `\$?\d+[.,]\d{2}` against the whole of `l`. -/
def moneyTail (l : List Char) : Bool :=
  match l with
  | '$' :: rest => digitsSepDD rest
  | _ => digitsSepDD l

/-- The `\s*` tail of the greedy `\s+` of the price regex, followed by
the anchored money pattern: prefer consuming whitespace, backtrack to
starting the money capture here.  Returns the capture on success. -/
def moneyAfterWs : List Char → Option (List Char)
  | [] => none
  | c :: rest =>
    if isWs c then
      match moneyAfterWs rest with
      | some p => some p
      | none => if moneyTail (c :: rest) then some (c :: rest) else none
    else
      if moneyTail (c :: rest) then some (c :: rest) else none

/-- `\s+` then the anchored money pattern: at least one whitespace
character is required. -/
def moneyAfterGap : List Char → Option (List Char)
  | [] => none
  | c :: rest => if isWs c then moneyAfterWs rest else none

/-- The lazy `^(.+?)` of the price regex `^(.+?)\s+(\$?\d+[.,]\d{2})$`:
grow the label one (non-line-terminator) character at a time, after each
character trying to match the rest of the regex.  Returns the two
captures (label, money) on success. -/
def priceSplitFrom (labRev : List Char) : List Char → Option (List Char × List Char)
  | [] => none
  | c :: rest =>
    if isDot c then
      match moneyAfterGap rest with
      | some p => some ((c :: labRev).reverse, p)
      | none => priceSplitFrom (c :: labRev) rest
    else none

/-- Full match of `^(.+?)\s+(\$?\d+[.,]\d{2})$` against `l`, returning
the captures. -/
def priceSplit (l : List Char) : Option (List Char × List Char) :=
  priceSplitFrom [] l

/-- `detectKeyValue` from the preprocessing module: try the colon
pattern `^([^:]+):\s*(.+)$` first, then the trailing-price pattern
`^(.+?)\s+(\$?\d+[.,]\d{2})$`; both captures are trimmed. -/
def detectKeyValue (text : List Char) : Option (List Char × List Char) :=
  match firstColonSplit text with
  | some (k, rest) =>
    match colonVal rest with
    | some v => some (trimWs k, trimWs v)
    | none => (priceSplit text).map fun p => (trimWs p.1, trimWs p.2)
  | none => (priceSplit text).map fun p => (trimWs p.1, trimWs p.2)

/-- JavaScript object assignment `info[key] = value`: overwrite in place
when the key exists (keeping the key's original creation position),
else append.  This models the object's property store; the enumeration
order of `Object.entries` is applied separately by `objectEntries`. -/
def setKV (m : List (List Char × List Char)) (k v : List Char) :
    List (List Char × List Char) :=
  if m.any fun p => p.1 = k then
    m.map fun p => if p.1 = k then (k, v) else p
  else m ++ [(k, v)]

/-- The numeric value of a digit string. -/
def keyToNat (k : List Char) : Nat :=
  k.foldl (fun n c => n * 10 + (c.toNat - '0'.toNat)) 0

/-- An ECMAScript array-index property key: the canonical decimal
numeral (no leading zero except "0" itself) of an integer below
2^32 - 1. -/
def isArrayIndexKey (k : List Char) : Bool :=
  match k with
  | [] => false
  | c :: rest =>
    c.isDigit && rest.all Char.isDigit && (rest.isEmpty || c != '0') &&
      decide (keyToNat (c :: rest) < 4294967295)

/-- Ordering of array-index keys by their numeric value. -/
def byKeyNum (a b : List Char × List Char) : Prop := keyToNat a.1 ≤ keyToNat b.1

instance : DecidableRel byKeyNum := fun a b =>
  inferInstanceAs (Decidable (keyToNat a.1 ≤ keyToNat b.1))

/-- JavaScript `Object.entries` on an ordinary object, given its
property store in creation order: array-index keys come first in
ascending numeric order, then the remaining string keys in creation
order. -/
def objectEntries (m : List (List Char × List Char)) :
    List (List Char × List Char) :=
  List.insertionSort byKeyNum (m.filter fun p => isArrayIndexKey p.1) ++
    m.filter fun p => !isArrayIndexKey p.1

/-- The text of a line in `extractKeyInfo`:
`line.blocks.map(b => b.correctedText || b.text).join(' ')`. -/
def lineTextRaw (L : Line) : List Char :=
  List.intercalate [' '] (L.blocks.map effText)

/-- `extractKeyInfo`: run `detectKeyValue` on each reconstructed line's
text and accumulate into the object's property store (string keys in
creation order; duplicate keys overwrite in place). -/
def extractKeyInfo (blocks : List TextBlock) : List (List Char × List Char) :=
  (groupIntoLines blocks).foldl
    (fun info L =>
      match detectKeyValue (lineTextRaw L) with
      | some kv => setKV info kv.1 kv.2
      | none => info)
    []

/-! ### `preprocessForLLM` and `createStructuredPrompt` -/

/-- The text of a line in `preprocessForLLM`: member texts trimmed,
empties dropped, joined by spaces. -/
def lineTextTrimmed (L : Line) : List Char :=
  List.intercalate [' '] ((L.blocks.map fun b => trimWs (effText b)).filter fun t => t ≠ [])

/-- JavaScript `String.prototype.replace('_', ' ')`: only the first
occurrence is replaced. -/
def replaceFirstUnderscore : List Char → List Char
  | [] => []
  | c :: rest => if c == '_' then ' ' :: rest else c :: replaceFirstUnderscore rest

/-- The `[TYPE]\n` hint prefix added when the detected type is not the
default: `docType.toUpperCase().replace('_', ' ')` in brackets. -/
def tagHeader (docType : String) : List Char :=
  if docType = "document" then []
  else '[' :: (replaceFirstUnderscore (docType.data.map Char.toUpper) ++ [']', '\n'])

/-- `preprocessForLLM(blocks, rawText?)` from the preprocessing module. -/
def preprocessForLLM (blocks : List TextBlock) (rawText : Option (List Char)) :
    List Char :=
  if blocks = [] then
    match rawText with
    | some r => if trimWs r = [] then [] else trimWs r
    | none => []
  else
    let lines := groupIntoLines blocks
    let structuredLines := (lines.map lineTextTrimmed).filter fun t => t ≠ []
    let structuredText := List.intercalate ['\n'] structuredLines
    tagHeader (detectDocumentType structuredText) ++ structuredText

/-- The `- key: value\n` rendering of the key-information section. -/
def renderEntries (entries : List (List Char × List Char)) : List Char :=
  (entries.map fun p => '-' :: ' ' :: (p.1 ++ ':' :: ' ' :: (p.2 ++ ['\n']))).flatten

/-- The `\n\nKey information:\n` header of the structured prompt. -/
def keyInfoHeader : List Char := "\n\nKey information:\n".data

/-- `createStructuredPrompt(blocks, rawText?)` from the preprocessing
module.  `Object.entries(keyInfo)` enumerates the record in ECMAScript
property order (`objectEntries`), not raw creation order. -/
def createStructuredPrompt (blocks : List TextBlock) (rawText : Option (List Char)) :
    List Char :=
  let preprocessed := preprocessForLLM blocks rawText
  let keyInfoEntries := objectEntries (extractKeyInfo blocks)
  if 2 ≤ keyInfoEntries.length then
    preprocessed ++ keyInfoHeader ++ renderEntries (keyInfoEntries.take 5)
  else preprocessed

/-! ### CloudVisionProvider: scale computation and result transform -/

/-- A word of the OCR.space response overlay. -/
structure OcrWord where
  WordText : List Char
  Left : ℚ
  Top : ℚ
  Width : ℚ
  Height : ℚ
deriving DecidableEq

/-- A line of the OCR.space response overlay. -/
structure OcrLine where
  Words : List OcrWord
  MaxHeight : ℚ
  MinTop : ℚ
deriving DecidableEq

/-- The `TextOverlay` field of a parsed result. -/
structure TextOverlayData where
  Lines : Option (List OcrLine)
deriving DecidableEq

/-- One entry of `ParsedResults`. -/
structure ParsedResult where
  ParsedText : List Char
  TextOverlay : Option TextOverlayData
deriving DecidableEq

/-- The OCR.space response shape consumed by `transformResult`. -/
structure OcrResponse where
  ParsedResults : Option (List ParsedResult)
deriving DecidableEq

/-- The `OCRResult` returned to callers. -/
structure OCRResult where
  text : List Char
  blocks : List TextBlock
  confidence : ℚ
deriving DecidableEq

/-- The scale factors computed in `recognize`:
`croppedSize.width / compressed.width` and
`croppedSize.height / compressed.height`, where `croppedSize` is the
crop region's size when a crop region was given and the original image
size otherwise. -/
def computeScale (originalSize : Size) (cropRegion : Option BoundingBox)
    (compressed : Size) : ℚ × ℚ :=
  let croppedSize : Size :=
    match cropRegion with
    | some c => { width := c.width, height := c.height }
    | none => originalSize
  (croppedSize.width / compressed.width, croppedSize.height / compressed.height)

/-- The box mapping inside `transformResult`: scale the word's box from
compressed to cropped size, then offset to original coordinates. -/
def mapBox (scaleX scaleY offsetX offsetY : ℚ) (w : OcrWord) : BoundingBox :=
  { x := w.Left * scaleX + offsetX
    y := w.Top * scaleY + offsetY
    width := w.Width * scaleX
    height := w.Height * scaleY }

/-- The words traversed by `transformResult`'s nested loops: all words of
all overlay lines of the first parsed result, in order; empty when
`ParsedResults` is absent or empty or the overlay is absent. -/
def collectWords (result : OcrResponse) : List OcrWord :=
  match result.ParsedResults with
  | some (parsed :: _) =>
    match parsed.TextOverlay with
    | some ov =>
      match ov.Lines with
      | some lines => (lines.map OcrLine.Words).flatten
      | none => []
    | none => []
  | _ => []

/-- The `ParsedText` of the first parsed result (empty otherwise). -/
def parsedFullText (result : OcrResponse) : List Char :=
  match result.ParsedResults with
  | some (parsed :: _) => parsed.ParsedText
  | _ => []

/-- `transformResult(result, scaleX, scaleY, cropRegion?)` of
`CloudVisionProvider`: words with empty (whitespace-only) text are
skipped, each kept word becomes a block with the mapped box and
confidence 0.9, and the overall confidence is 0.9 when any block was
produced, else 0.  The fresh opaque ids produced by `generateId()` are
modelled as the block's position index. -/
def transformResult (result : OcrResponse) (scaleX scaleY : ℚ)
    (cropRegion : Option BoundingBox) : OCRResult :=
  let offsetX := (cropRegion.map BoundingBox.x).getD 0
  let offsetY := (cropRegion.map BoundingBox.y).getD 0
  let kept := (collectWords result).filter fun w => trimWs w.WordText ≠ []
  let blocks := kept.enum.map fun p =>
    { id := p.1
      text := p.2.WordText
      boundingBox := mapBox scaleX scaleY offsetX offsetY p.2
      confidence := 9 / 10 : TextBlock }
  { text := parsedFullText result
    blocks := blocks
    confidence := if 0 < blocks.length then 9 / 10 else 0 }

/-! ### Display mapping (`scaleBox`) and selection overlay -/

/-- The on-screen rectangle produced by `scaleBox`. -/
structure DisplayRect where
  left : ℚ
  top : ℚ
  width : ℚ
  height : ℚ
deriving DecidableEq

/-- `scaleBox(box, imageSize, displaySize)` of the text-block overlay
component: multiply by `display / image` with no offset. -/
def scaleBox (box : BoundingBox) (imageSize displaySize : Size) : DisplayRect :=
  let scaleX := displaySize.width / imageSize.width
  let scaleY := displaySize.height / imageSize.height
  { left := box.x * scaleX
    top := box.y * scaleY
    width := box.width * scaleX
    height := box.height * scaleY }

/-- A drag rectangle of the selection overlay. -/
structure SelectionRect where
  startX : ℚ
  startY : ℚ
  endX : ℚ
  endY : ℚ
deriving DecidableEq

/-- `convertToImageCoordinates(rect)` of the selection overlay: normalize
the drag rectangle to non-negative width/height, then multiply by
`image / display`. -/
def convertToImageCoordinates (rect : SelectionRect) (imageSize displaySize : Size) :
    BoundingBox :=
  let scaleX := imageSize.width / displaySize.width
  let scaleY := imageSize.height / displaySize.height
  let left := min rect.startX rect.endX
  let top := min rect.startY rect.endY
  let width := absQ (rect.endX - rect.startX)
  let height := absQ (rect.endY - rect.startY)
  { x := left * scaleX
    y := top * scaleY
    width := width * scaleX
    height := height * scaleY }

/-- Present a display rectangle as a drag gesture: the two corners in
either order per axis, depending on the drag direction. -/
def presentRect (r : DisplayRect) (flipX flipY : Bool) : SelectionRect :=
  let x1 := r.left
  let x2 := r.left + r.width
  let y1 := r.top
  let y2 := r.top + r.height
  { startX := if flipX then x2 else x1
    startY := if flipY then y2 else y1
    endX := if flipX then x1 else x2
    endY := if flipY then y1 else y2 }

/-- The pure content of the selection overlay's `onPanResponderRelease`
handler: given the active flag and the tracked selection, the region
passed to `onSelectionComplete` (`none` when the callback is not
invoked).  The drag must measure at least 20 by 20 display pixels. -/
def handleRelease (isActive : Bool) (sel : Option SelectionRect)
    (imageSize displaySize : Size) : Option BoundingBox :=
  if !isActive then none
  else
    match sel with
    | none => none
    | some rect =>
      let width := absQ (rect.endX - rect.startX)
      let height := absQ (rect.endY - rect.startY)
      if 20 ≤ width ∧ 20 ≤ height then
        some (convertToImageCoordinates rect imageSize displaySize)
      else none

/-! ### Concrete inputs used by witnesses and examples -/

/-- A block at `x = 30`, `y = 0`. -/
def wbA : TextBlock :=
  { id := 0, text := ['a'], boundingBox := { x := 30, y := 0, width := 1, height := 1 },
    confidence := 1 }

/-- A block at `x = 10`, `y = 5`. -/
def wbB : TextBlock :=
  { id := 1, text := ['b'], boundingBox := { x := 10, y := 5, width := 1, height := 1 },
    confidence := 1 }

/-- A block at `x = 20`, `y = 10`. -/
def wbC : TextBlock :=
  { id := 2, text := ['c'], boundingBox := { x := 20, y := 10, width := 1, height := 1 },
    confidence := 1 }

/-- A block at `y = 15` (exactly the default threshold away from `wbA`). -/
def wbD : TextBlock :=
  { id := 3, text := ['d'], boundingBox := { x := 0, y := 15, width := 1, height := 1 },
    confidence := 1 }

/-- A block at `y = 16` (one more than the default threshold from `wbA`). -/
def wbE : TextBlock :=
  { id := 4, text := ['e'], boundingBox := { x := 0, y := 16, width := 1, height := 1 },
    confidence := 1 }

/-- The classifier-priority example text of the spec. -/
def receiptExample : List Char :=
  "Total: $5.00\nJohn Smith\njohn@x.com\n555-123-4567".data

/-- The crop region of the spec's coordinate round-trip example. -/
def cropExample : BoundingBox := { x := 100, y := 200, width := 1000, height := 1500 }

/-- A word reported at compressed-space `{x:500, y:750, w:100, h:100}`. -/
def wordAt500 : OcrWord :=
  { WordText := "Hi".data, Left := 500, Top := 750, Width := 100, Height := 100 }

/-- A word whose text is whitespace-only. -/
def wordBlank : OcrWord :=
  { WordText := " ".data, Left := 0, Top := 0, Width := 1, Height := 1 }

/-- A concrete OCR.space response with one overlay line carrying one
real word and one whitespace-only word. -/
def respExample : OcrResponse :=
  { ParsedResults := some [
      { ParsedText := "Hi".data
        TextOverlay := some { Lines := some [
          { Words := [wordAt500, wordBlank], MaxHeight := 100, MinTop := 750 }] } }] }

/-- A response with no parsed results. -/
def respEmpty : OcrResponse := { ParsedResults := none }

/-- A block whose line reads "a: 1", at `y = 0`. -/
def kvB1 : TextBlock :=
  { id := 0, text := "a: 1".data, boundingBox := { x := 0, y := 0, width := 1, height := 1 },
    confidence := 1 }

/-- A block whose line reads "a: 2", at `y = 100` (a separate line). -/
def kvB2 : TextBlock :=
  { id := 1, text := "a: 2".data, boundingBox := { x := 0, y := 100, width := 1, height := 1 },
    confidence := 1 }

/-- A block whose line reads "Total: 9.99", at `y = 0`: its key "Total"
is an ordinary string key. -/
def cxB1 : TextBlock :=
  { id := 0, text := "Total: 9.99".data,
    boundingBox := { x := 0, y := 0, width := 1, height := 1 }, confidence := 1 }

/-- A block whose line reads "12: 30" (a time), at `y = 100`: its key
"12" is an array-index key, which `Object.entries` enumerates before
"Total" even though it was discovered later. -/
def cxB2 : TextBlock :=
  { id := 1, text := "12: 30".data,
    boundingBox := { x := 0, y := 100, width := 1, height := 1 }, confidence := 1 }

/-!
## Theorems
-/

/-! ### Generic facts about `absQ` and the sorts -/

theorem absQ_eq_abs (q : ℚ) : absQ q = |q| := by
  unfold absQ
  rcases lt_or_le q 0 with h | h
  · rw [if_pos h, abs_of_neg h]
  · rw [if_neg (not_lt.mpr h), abs_of_nonneg h]

theorem absQ_sub_comm (a b : ℚ) : absQ (a - b) = absQ (b - a) := by
  rw [absQ_eq_abs, absQ_eq_abs, abs_sub_comm]

theorem absQ_nonneg (q : ℚ) : 0 ≤ absQ q := by
  rw [absQ_eq_abs]; exact abs_nonneg q

theorem sortByY_perm (blocks : List TextBlock) : List.Perm (sortByY blocks) blocks :=
  List.perm_insertionSort byY blocks

theorem sortByY_sorted (blocks : List TextBlock) : List.Sorted byY (sortByY blocks) :=
  List.sorted_insertionSort byY blocks

theorem sortByX_perm (blocks : List TextBlock) : List.Perm (sortByX blocks) blocks :=
  List.perm_insertionSort byX blocks

theorem sortByX_sorted (blocks : List TextBlock) : List.Sorted byX (sortByX blocks) :=
  List.sorted_insertionSort byX blocks

/-! ### Structure of the grouping loop -/

theorem groupAux_eq_map_raw (t : ℚ) :
    ∀ (rest : List TextBlock) (cur : Line),
      groupAux t cur rest = (rawAux t cur rest).map finalizeLine
  | [], cur => rfl
  | b :: rest, cur => by
    by_cases h : absQ (b.boundingBox.y - cur.y) ≤ t
    · simp only [groupAux, rawAux, if_pos h]
      exact groupAux_eq_map_raw t rest _
    · simp only [groupAux, rawAux, if_neg h, List.map_cons]
      exact congrArg _ (groupAux_eq_map_raw t rest _)

theorem groupIntoLines_eq_map_raw (blocks : List TextBlock) (t : ℚ) :
    groupIntoLines blocks t = (rawGroupIntoLines blocks t).map finalizeLine := by
  unfold groupIntoLines rawGroupIntoLines
  cases sortByY blocks with
  | nil => rfl
  | cons b rest => exact groupAux_eq_map_raw t rest _

theorem rawAux_flatten (t : ℚ) :
    ∀ (rest : List TextBlock) (cur : Line),
      ((rawAux t cur rest).map Line.blocks).flatten = cur.blocks ++ rest
  | [], cur => by simp [rawAux]
  | b :: rest, cur => by
    by_cases h : absQ (b.boundingBox.y - cur.y) ≤ t
    · simp only [rawAux, if_pos h]
      rw [rawAux_flatten t rest]
      simp
    · simp only [rawAux, if_neg h, List.map_cons, List.flatten_cons]
      rw [rawAux_flatten t rest]
      simp

theorem rawGroupIntoLines_flatten (blocks : List TextBlock) (t : ℚ) :
    ((rawGroupIntoLines blocks t).map Line.blocks).flatten = sortByY blocks := by
  unfold rawGroupIntoLines
  cases h : sortByY blocks with
  | nil => rfl
  | cons b rest =>
    rw [rawAux_flatten t rest]
    rfl

theorem rawAux_head (t : ℚ) :
    ∀ (rest : List TextBlock) (cur : Line),
      ∃ L ls, rawAux t cur rest = L :: ls ∧ L.y = cur.y
  | [], cur => ⟨cur, [], rfl, rfl⟩
  | b :: rest, cur => by
    by_cases h : absQ (b.boundingBox.y - cur.y) ≤ t
    · obtain ⟨L, ls, hEq, hy⟩ := rawAux_head t rest { y := cur.y, blocks := cur.blocks ++ [b] }
      refine ⟨L, ls, ?_, hy⟩
      simpa only [rawAux, if_pos h] using hEq
    · exact ⟨cur, rawAux t { y := b.boundingBox.y, blocks := [b] } rest, by
        simp only [rawAux, if_neg h], rfl⟩

theorem rawAux_chain (t : ℚ) :
    ∀ (rest : List TextBlock) (cur : Line),
      List.Chain' (fun A B => t < absQ (B.y - A.y)) (rawAux t cur rest)
  | [], cur => by simp [rawAux]
  | b :: rest, cur => by
    by_cases h : absQ (b.boundingBox.y - cur.y) ≤ t
    · simpa only [rawAux, if_pos h] using
        rawAux_chain t rest { y := cur.y, blocks := cur.blocks ++ [b] }
    · simp only [rawAux, if_neg h]
      rw [List.chain'_cons']
      refine ⟨?_, rawAux_chain t rest _⟩
      intro L hL
      obtain ⟨L', ls, hEq, hy⟩ := rawAux_head t rest { y := b.boundingBox.y, blocks := [b] }
      rw [hEq] at hL
      simp only [List.head?_cons, Option.mem_def, Option.some.injEq] at hL
      subst hL
      rw [hy]
      exact not_le.mp h

/-- Invariant of a line under construction: it has an opening member
whose `y` is the line's pinned reference, and every member appended
after the opener was within the threshold of that reference. -/
def LineOk (t : ℚ) (L : Line) : Prop :=
  ∃ b bs, L.blocks = b :: bs ∧ L.y = b.boundingBox.y ∧
    ∀ m ∈ bs, absQ (m.boundingBox.y - L.y) ≤ t

theorem rawAux_lineOk (t : ℚ) :
    ∀ (rest : List TextBlock) (cur : Line), LineOk t cur →
      ∀ L ∈ rawAux t cur rest, LineOk t L
  | [], cur => by
    intro hcur L hL
    simp only [rawAux, List.mem_singleton] at hL
    exact hL ▸ hcur
  | b :: rest, cur => by
    intro hcur L hL
    by_cases h : absQ (b.boundingBox.y - cur.y) ≤ t
    · rw [show rawAux t cur (b :: rest) =
          rawAux t { y := cur.y, blocks := cur.blocks ++ [b] } rest by
        simp only [rawAux, if_pos h]] at hL
      refine rawAux_lineOk t rest _ ?_ L hL
      obtain ⟨b0, bs, hbl, hy, hmem⟩ := hcur
      exact ⟨b0, bs ++ [b], by simp [hbl], hy, fun m hm => by
        rcases List.mem_append.mp hm with hm | hm
        · exact hmem m hm
        · simp only [List.mem_singleton] at hm
          exact hm ▸ h⟩
    · rw [show rawAux t cur (b :: rest) =
          cur :: rawAux t { y := b.boundingBox.y, blocks := [b] } rest by
        simp only [rawAux, if_neg h]] at hL
      rcases List.mem_cons.mp hL with hL | hL
      · exact hL ▸ hcur
      · exact rawAux_lineOk t rest _ ⟨b, [], rfl, rfl, by simp⟩ L hL

theorem rawGroupIntoLines_lineOk (blocks : List TextBlock) (t : ℚ) :
    ∀ L ∈ rawGroupIntoLines blocks t, LineOk t L := by
  unfold rawGroupIntoLines
  cases sortByY blocks with
  | nil => simp
  | cons b rest => exact rawAux_lineOk t rest _ ⟨b, [], rfl, rfl, by simp⟩

theorem rawGroupIntoLines_chain (blocks : List TextBlock) (t : ℚ) :
    List.Chain' (fun A B => t < absQ (B.y - A.y)) (rawGroupIntoLines blocks t) := by
  unfold rawGroupIntoLines
  cases sortByY blocks with
  | nil => simp
  | cons b rest => exact rawAux_chain t rest _

/-- `groupIntoLines` on a two-element list: one line when the two `y`
values are within the threshold of each other, two lines otherwise. -/
theorem groupIntoLines_pair_length (b1 b2 : TextBlock) (t : ℚ) :
    (groupIntoLines [b1, b2] t).length =
      if absQ (b2.boundingBox.y - b1.boundingBox.y) ≤ t then 1 else 2 := by
  have hsort : sortByY [b1, b2] =
      if b1.boundingBox.y ≤ b2.boundingBox.y then [b1, b2] else [b2, b1] := by
    by_cases h : b1.boundingBox.y ≤ b2.boundingBox.y
    · simp [sortByY, List.insertionSort, List.orderedInsert, byY, h]
    · simp [sortByY, List.insertionSort, List.orderedInsert, byY, h]
  unfold groupIntoLines
  by_cases h : b1.boundingBox.y ≤ b2.boundingBox.y
  · rw [hsort, if_pos h]
    by_cases ht : absQ (b2.boundingBox.y - b1.boundingBox.y) ≤ t
    · simp [groupAux, ht]
    · simp [groupAux, ht]
  · rw [hsort, if_neg h]
    rw [absQ_sub_comm]
    by_cases ht : absQ (b1.boundingBox.y - b2.boundingBox.y) ≤ t
    · simp [groupAux, ht]
    · simp [groupAux, ht]

/-- C1: for every non-empty list of detections, `groupIntoLines` first
sorts them by ascending bounding-box `y` (a stable sort of the input);
processing the sorted blocks in order, each block is appended to the
current line exactly when the absolute difference between its `y` and
the line's reference `y` (the `y` of the block that opened the line,
never updated afterwards) is at most `lineThreshold`, and otherwise
opens a new line with itself as the new reference: the lines (before
within-line sorting) concatenate back to the sorted input, every
non-opening member of a line was within the threshold of the line's
pinned reference, and each successive line's reference differs from the
previous line's reference by more than the threshold.  In particular two
detections whose `y` values differ by exactly `lineThreshold` end up in
one line, and by `lineThreshold` plus any positive amount in two. -/
theorem claim_C1 (blocks : List TextBlock) (t : ℚ) (hne : blocks ≠ []) :
    (List.Sorted byY (sortByY blocks) ∧ List.Perm (sortByY blocks) blocks) ∧
    groupIntoLines blocks t = (rawGroupIntoLines blocks t).map finalizeLine ∧
    ((rawGroupIntoLines blocks t).map Line.blocks).flatten = sortByY blocks ∧
    (∀ L ∈ rawGroupIntoLines blocks t, ∃ b bs, L.blocks = b :: bs ∧
        L.y = b.boundingBox.y ∧ ∀ m ∈ bs, absQ (m.boundingBox.y - L.y) ≤ t) ∧
    List.Chain' (fun A B => t < absQ (B.y - A.y)) (rawGroupIntoLines blocks t) ∧
    (∀ b1 b2 : TextBlock, absQ (b2.boundingBox.y - b1.boundingBox.y) = t →
        (groupIntoLines [b1, b2] t).length = 1) ∧
    (∀ b1 b2 : TextBlock, ∀ ε : ℚ, 0 < ε →
        absQ (b2.boundingBox.y - b1.boundingBox.y) = t + ε →
        (groupIntoLines [b1, b2] t).length = 2) := by
  refine ⟨⟨sortByY_sorted blocks, sortByY_perm blocks⟩,
    groupIntoLines_eq_map_raw blocks t,
    rawGroupIntoLines_flatten blocks t,
    rawGroupIntoLines_lineOk blocks t,
    rawGroupIntoLines_chain blocks t,
    fun b1 b2 h => ?_, fun b1 b2 ε hε h => ?_⟩
  · rw [groupIntoLines_pair_length, if_pos (le_of_eq h)]
  · rw [groupIntoLines_pair_length, if_neg (by rw [h]; exact not_le.mpr (lt_add_of_pos_right t hε))]

/-- Witness for C1 at concrete inputs: blocks whose `y` values differ by
exactly 15 are grouped into one line, and by 16 into two lines. -/
theorem claim_C1_witness :
    (groupIntoLines [wbA, wbD] 15).length = 1 ∧
    (groupIntoLines [wbA, wbE] 15).length = 2 := by
  obtain ⟨-, -, -, -, -, h1, h2⟩ := claim_C1 [wbA] 15 (by simp)
  exact ⟨h1 wbA wbD (by norm_num [wbA, wbD, absQ]),
    h2 wbA wbE 1 one_pos (by norm_num [wbA, wbE, absQ])⟩

/-- C6: every line returned by `groupIntoLines` (the final line
included) has its members ordered by ascending bounding-box `x`; in
particular members with `x` coordinates `[30, 10, 20]` come back
ordered `[10, 20, 30]`. -/
theorem claim_C6 :
    (∀ (blocks : List TextBlock) (t : ℚ), ∀ L ∈ groupIntoLines blocks t,
        List.Sorted byX L.blocks) ∧
    ((groupIntoLines [wbA, wbB, wbC]).map fun L => L.blocks.map fun b => b.boundingBox.x)
      = [[10, 20, 30]] := by
  constructor
  · intro blocks t L hL
    rw [groupIntoLines_eq_map_raw] at hL
    obtain ⟨L', _, rfl⟩ := List.mem_map.mp hL
    exact sortByX_sorted L'.blocks
  · norm_num [groupIntoLines, sortByY, sortByX, List.insertionSort, List.orderedInsert,
      byY, byX, groupAux, finalizeLine, absQ, wbA, wbB, wbC]

/-- Witness for C6: the single line produced from the three example
blocks is sorted by ascending `x`. -/
theorem claim_C6_witness :
    List.Sorted byX (Line.mk 0 [wbB, wbC, wbA]).blocks := by
  have heval : groupIntoLines [wbA, wbB, wbC] 15 = [{ y := 0, blocks := [wbB, wbC, wbA] }] := by
    norm_num [groupIntoLines, sortByY, sortByX, List.insertionSort, List.orderedInsert,
      byY, byX, groupAux, finalizeLine, absQ, wbA, wbB, wbC]
  exact claim_C6.1 [wbA, wbB, wbC] 15 _ (heval ▸ List.mem_singleton_self _)

theorem forall₂_perm_sortByX (l : List Line) :
    List.Forall₂ (fun a b => List.Perm a b) (l.map fun L => sortByX L.blocks)
      (l.map Line.blocks) := by
  induction l with
  | nil => exact List.Forall₂.nil
  | cons L ls ih => exact List.Forall₂.cons (sortByX_perm L.blocks) ih

/-- C8: `groupIntoLines` partitions its input: the concatenation of the
returned lines' members is a permutation of the input (so each input
detection appears in exactly one line, counted with multiplicity), no
returned line is empty, and the empty input yields no lines. -/
theorem claim_C8 (blocks : List TextBlock) (t : ℚ) :
    List.Perm (((groupIntoLines blocks t).map Line.blocks).flatten) blocks ∧
    (∀ L ∈ groupIntoLines blocks t, L.blocks ≠ []) ∧
    (blocks = [] → groupIntoLines blocks t = []) := by
  refine ⟨?_, ?_, ?_⟩
  · rw [groupIntoLines_eq_map_raw, List.map_map]
    have h1 : List.Forall₂ (fun a b => List.Perm a b)
        ((rawGroupIntoLines blocks t).map (Line.blocks ∘ finalizeLine))
        ((rawGroupIntoLines blocks t).map Line.blocks) :=
      forall₂_perm_sortByX (rawGroupIntoLines blocks t)
    refine (List.Perm.flatten_congr h1).trans ?_
    rw [rawGroupIntoLines_flatten]
    exact sortByY_perm blocks
  · intro L hL
    rw [groupIntoLines_eq_map_raw] at hL
    obtain ⟨L', hL', rfl⟩ := List.mem_map.mp hL
    obtain ⟨b, bs, hbl, -, -⟩ := rawGroupIntoLines_lineOk blocks t L' hL'
    have hlen : (sortByX L'.blocks).length = L'.blocks.length :=
      (sortByX_perm L'.blocks).length_eq
    intro hnil
    rw [show (finalizeLine L').blocks = sortByX L'.blocks from rfl] at hnil
    rw [hnil] at hlen
    rw [hbl] at hlen
    simp at hlen
  · intro h
    subst h
    rfl

/-- Witness for C8 at concrete inputs: the two-line grouping of
`[wbA, wbE]` flattens to a permutation of the input, the singleton
grouping of `[wbA]` has a non-empty line, and the empty input yields no
lines. -/
theorem claim_C8_witness :
    List.Perm (((groupIntoLines [wbA, wbE] 15).map Line.blocks).flatten) [wbA, wbE] ∧
    (Line.mk 0 [wbA]).blocks ≠ [] ∧
    groupIntoLines ([] : List TextBlock) 15 = [] := by
  have heval : groupIntoLines [wbA] 15 = [{ y := 0, blocks := [wbA] }] := by
    norm_num [groupIntoLines, sortByY, sortByX, List.insertionSort, List.orderedInsert,
      byY, byX, groupAux, finalizeLine, absQ, wbA]
  exact ⟨(claim_C8 [wbA, wbE] 15).1,
    (claim_C8 [wbA] 15).2.1 _ (heval ▸ List.mem_singleton_self _),
    (claim_C8 [] 15).2.2 rfl⟩

/-- C3: `detectDocumentType` evaluates its rules in the fixed priority
order receipt, business card, menu, letter and returns the tag of the
first rule that matches; in particular the receipt rule is checked
before the business-card rule, so the example input
`"Total: $5.00\nJohn Smith\njohn@x.com\n555-123-4567"` returns
"receipt" even though its business-card signals are also present. -/
theorem claim_C3 :
    (∀ text : List Char, receiptCheck text = true →
        detectDocumentType text = "receipt") ∧
    (∀ text : List Char, receiptCheck text = false → businessCardCheck text = true →
        detectDocumentType text = "business_card") ∧
    (∀ text : List Char, receiptCheck text = false → businessCardCheck text = false →
        menuCheck text = true → detectDocumentType text = "menu_or_price_list") ∧
    (∀ text : List Char, receiptCheck text = false → businessCardCheck text = false →
        menuCheck text = false → letterCheck text = true →
        detectDocumentType text = "letter") ∧
    detectDocumentType receiptExample = "receipt" ∧
    businessCardCheck receiptExample = true := by
  refine ⟨?_, ?_, ?_, ?_, by decide, by decide⟩
  · intro text h
    simp [detectDocumentType, h]
  · intro text h1 h2
    simp [detectDocumentType, h1, h2]
  · intro text h1 h2 h3
    simp [detectDocumentType, h1, h2, h3]
  · intro text h1 h2 h3 h4
    simp [detectDocumentType, h1, h2, h3, h4]

/-- Witness for C3: the receipt rule fires on the example text, so it is
classified "receipt". -/
theorem claim_C3_witness : detectDocumentType receiptExample = "receipt" :=
  claim_C3.1 receiptExample (by decide)

/-- C7: `detectDocumentType` is total (it is a Lean function) and has no
error conditions: whenever none of the receipt, business-card, menu or
letter rules matches — the empty string included — it returns the
default tag "document". -/
theorem claim_C7 :
    (∀ text : List Char, receiptCheck text = false → businessCardCheck text = false →
        menuCheck text = false → letterCheck text = false →
        detectDocumentType text = "document") ∧
    detectDocumentType [] = "document" := by
  refine ⟨?_, by decide⟩
  intro text h1 h2 h3 h4
  simp [detectDocumentType, h1, h2, h3, h4]

/-- Witness for C7: no rule matches the empty string, and it is
classified "document". -/
theorem claim_C7_witness : detectDocumentType [] = "document" :=
  claim_C7.1 [] (by decide) (by decide) (by decide) (by decide)

theorem enum_map_comp {α β : Type} (l : List α) (g : α → β) :
    l.enum.map (fun p => g p.2) = l.map g := by
  rw [show (fun p : Nat × α => g p.2) = g ∘ Prod.snd from rfl, ← List.map_map]
  simp

/-- C2: the scale factors are `cropW / compressedW` and
`cropH / compressedH`, with `cropW, cropH` the crop region's dimensions
when present and the original image's otherwise; every OCR-reported box
is mapped to original coordinates as `x' = x*scaleX + offsetX`,
`y' = y*scaleY + offsetY`, `width' = width*scaleX`,
`height' = height*scaleY`, with the offsets equal to the crop region's
origin when present and 0 otherwise; and for the spec's round-trip
example the scale is `(1, 1)` and the compressed-space box
`{x:500, y:750, w:100, h:100}` maps to `{x:600, y:950, w:100, h:100}`. -/
theorem claim_C2 :
    (∀ (orig : Size) (c : BoundingBox) (comp : Size),
        computeScale orig (some c) comp =
          (c.width / comp.width, c.height / comp.height)) ∧
    (∀ orig comp : Size,
        computeScale orig none comp =
          (orig.width / comp.width, orig.height / comp.height)) ∧
    (∀ (r : OcrResponse) (sX sY : ℚ) (crop : Option BoundingBox),
        (transformResult r sX sY crop).blocks.map TextBlock.boundingBox =
          ((collectWords r).filter fun w => trimWs w.WordText ≠ []).map
            (mapBox sX sY ((crop.map BoundingBox.x).getD 0)
              ((crop.map BoundingBox.y).getD 0))) ∧
    computeScale { width := 3000, height := 4000 } (some cropExample)
      { width := 1000, height := 1500 } = (1, 1) ∧
    mapBox 1 1 100 200 wordAt500 = { x := 600, y := 950, width := 100, height := 100 } := by
  refine ⟨fun orig c comp => rfl, fun orig comp => rfl, ?_, ?_, ?_⟩
  · intro r sX sY crop
    simp only [transformResult]
    rw [List.map_map]
    exact enum_map_comp _ fun w =>
      mapBox sX sY ((crop.map BoundingBox.x).getD 0) ((crop.map BoundingBox.y).getD 0) w
  · norm_num [computeScale, cropExample]
  · norm_num [mapBox, wordAt500]

/-- C9: `transformResult` drops every word whose text is empty or
whitespace-only, gives each produced block confidence exactly 0.9, sets
the overall confidence to 0.9 when at least one block was produced and
to 0 otherwise, and an absent or empty `ParsedResults` yields no blocks
and an empty full text. -/
theorem claim_C9 (r : OcrResponse) (sX sY : ℚ) (crop : Option BoundingBox) :
    ((transformResult r sX sY crop).blocks.map TextBlock.text =
      ((collectWords r).filter fun w => trimWs w.WordText ≠ []).map OcrWord.WordText) ∧
    (∀ b ∈ (transformResult r sX sY crop).blocks, b.confidence = 9 / 10) ∧
    ((transformResult r sX sY crop).blocks ≠ [] →
        (transformResult r sX sY crop).confidence = 9 / 10) ∧
    ((transformResult r sX sY crop).blocks = [] →
        (transformResult r sX sY crop).confidence = 0) ∧
    (r.ParsedResults = none ∨ r.ParsedResults = some [] →
        (transformResult r sX sY crop).blocks = [] ∧
        (transformResult r sX sY crop).text = []) := by
  refine ⟨?_, ?_, ?_, ?_, ?_⟩
  · simp only [transformResult]
    rw [List.map_map]
    exact enum_map_comp _ OcrWord.WordText
  · intro b hb
    simp only [transformResult, List.mem_map] at hb
    obtain ⟨p, -, rfl⟩ := hb
    rfl
  · intro hne
    simp only [transformResult] at hne ⊢
    rw [if_pos (List.length_pos.mpr hne)]
  · intro hnil
    simp only [transformResult] at hnil ⊢
    rw [if_neg (by rw [hnil]; simp)]
  · intro h
    have hw : collectWords r = [] := by
      rcases h with h | h <;> simp [collectWords, h]
    have ht : parsedFullText r = [] := by
      rcases h with h | h <;> simp [parsedFullText, h]
    simp [transformResult, hw, ht]

/-- Witness for C9 at a concrete response: the whitespace-only word is
dropped, the produced block has confidence 0.9, the result confidence is
0.9, and the empty response yields no blocks and empty text with
confidence 0. -/
theorem claim_C9_witness :
    ((transformResult respExample 1 1 (some cropExample)).blocks.map TextBlock.text
      = ["Hi".data]) ∧
    (transformResult respExample 1 1 (some cropExample)).confidence = 9 / 10 ∧
    (transformResult respEmpty 1 1 none).blocks = [] ∧
    (transformResult respEmpty 1 1 none).text = [] ∧
    (transformResult respEmpty 1 1 none).confidence = 0 := by
  have hkept : ((collectWords respExample).filter fun w => trimWs w.WordText ≠ [])
      = [wordAt500] := by decide
  have h1 := (claim_C9 respExample 1 1 (some cropExample)).1
  rw [hkept] at h1
  have hne : (transformResult respExample 1 1 (some cropExample)).blocks ≠ [] := by
    intro hnil
    rw [hnil] at h1
    simp at h1
  have h5 := (claim_C9 respEmpty 1 1 none).2.2.2.2 (Or.inl rfl)
  refine ⟨by rw [h1]; rfl, (claim_C9 respExample 1 1 (some cropExample)).2.2.1 hne,
    h5.1, h5.2, (claim_C9 respEmpty 1 1 none).2.2.2.1 h5.1⟩

theorem min_flip (f : Bool) (p q : ℚ) :
    min (if f then q else p) (if f then p else q) = min p q := by
  cases f
  · simp
  · simp [min_comm]

theorem absQ_flip (f : Bool) (p q : ℚ) :
    absQ ((if f then p else q) - (if f then q else p)) = absQ (q - p) := by
  cases f
  · simp
  · simp [absQ_sub_comm]

/-- C5: the display mapping (`scaleBox`) and the selection-overlay
mapping (`convertToImageCoordinates`) are mutually inverse over exact
arithmetic: for every box with non-negative width and height and every
positive image and display dimensions, mapping the box to display space,
presenting the resulting on-screen rectangle as a drag in either
direction on each axis, and converting back yields the original box. -/
theorem claim_C5 (box : BoundingBox) (iS dS : Size) (fX fY : Bool)
    (hiw : 0 < iS.width) (hih : 0 < iS.height)
    (hdw : 0 < dS.width) (hdh : 0 < dS.height)
    (hw : 0 ≤ box.width) (hh : 0 ≤ box.height) :
    convertToImageCoordinates (presentRect (scaleBox box iS dS) fX fY) iS dS = box := by
  obtain ⟨bx, byv, bw, bh⟩ := box
  obtain ⟨iw, ih⟩ := iS
  obtain ⟨dw, dh⟩ := dS
  simp only at hiw hih hdw hdh hw hh
  have hiw0 : iw ≠ 0 := ne_of_gt hiw
  have hih0 : ih ≠ 0 := ne_of_gt hih
  have hdw0 : dw ≠ 0 := ne_of_gt hdw
  have hdh0 : dh ≠ 0 := ne_of_gt hdh
  have hsx : (0:ℚ) ≤ bw * (dw / iw) := mul_nonneg hw (div_pos hdw hiw).le
  have hsy : (0:ℚ) ≤ bh * (dh / ih) := mul_nonneg hh (div_pos hdh hih).le
  simp only [convertToImageCoordinates, presentRect, scaleBox, min_flip, absQ_flip,
    BoundingBox.mk.injEq]
  refine ⟨?_, ?_, ?_, ?_⟩
  · rw [min_eq_left (by linarith : bx * (dw / iw) ≤ bx * (dw / iw) + bw * (dw / iw))]
    field_simp
  · rw [min_eq_left (by linarith : byv * (dh / ih) ≤ byv * (dh / ih) + bh * (dh / ih))]
    field_simp
  · rw [add_sub_cancel_left, absQ_eq_abs, abs_of_nonneg hsx]
    field_simp
  · rw [add_sub_cancel_left, absQ_eq_abs, abs_of_nonneg hsy]
    field_simp

/-- Witness for C5 at a concrete box, sizes and drag direction. -/
theorem claim_C5_witness :
    convertToImageCoordinates
        (presentRect (scaleBox { x := 10, y := 20, width := 30, height := 40 }
          { width := 100, height := 200 } { width := 50, height := 100 }) true true)
        { width := 100, height := 200 } { width := 50, height := 100 } =
      { x := 10, y := 20, width := 30, height := 40 } :=
  claim_C5 { x := 10, y := 20, width := 30, height := 40 }
    { width := 100, height := 200 } { width := 50, height := 100 } true true
    (by norm_num) (by norm_num) (by norm_num) (by norm_num) (by norm_num) (by norm_num)

/-- C10: the selection overlay's release handler reports a region to
`onSelectionComplete` exactly when the drag rectangle measures at least
20 by 20 display pixels; any smaller drag reports nothing. -/
theorem claim_C10 (rect : SelectionRect) (iS dS : Size) :
    (20 ≤ absQ (rect.endX - rect.startX) ∧ 20 ≤ absQ (rect.endY - rect.startY) →
      handleRelease true (some rect) iS dS =
        some (convertToImageCoordinates rect iS dS)) ∧
    (¬(20 ≤ absQ (rect.endX - rect.startX) ∧ 20 ≤ absQ (rect.endY - rect.startY)) →
      handleRelease true (some rect) iS dS = none) := by
  constructor
  · intro h
    simp [handleRelease, h]
  · intro h
    simp only [handleRelease, Bool.not_true, if_neg]
    rw [if_neg h]
    simp

/-- Witness for C10 at concrete drags: a 25-by-30 drag reports the
converted region, a 10-by-30 drag reports nothing. -/
theorem claim_C10_witness :
    handleRelease true (some { startX := 0, startY := 0, endX := 25, endY := 30 })
        { width := 100, height := 100 } { width := 50, height := 50 } =
      some (convertToImageCoordinates { startX := 0, startY := 0, endX := 25, endY := 30 }
        { width := 100, height := 100 } { width := 50, height := 50 }) ∧
    handleRelease true (some { startX := 0, startY := 0, endX := 10, endY := 30 })
        { width := 100, height := 100 } { width := 50, height := 50 } = none := by
  constructor
  · exact (claim_C10 _ _ _).1 (by norm_num [absQ])
  · exact (claim_C10 _ _ _).2 (by norm_num [absQ])

theorem cx_lines : groupIntoLines [cxB1, cxB2] 15 =
    [{ y := 0, blocks := [cxB1] }, { y := 100, blocks := [cxB2] }] := by
  norm_num [groupIntoLines, sortByY, sortByX, List.insertionSort, List.orderedInsert,
    byY, byX, groupAux, finalizeLine, absQ, cxB1, cxB2]

theorem cx_keys : extractKeyInfo [cxB1, cxB2] =
    [("Total".data, "9.99".data), ("12".data, "30".data)] := by
  show (groupIntoLines [cxB1, cxB2] 15).foldl _ [] = _
  rw [cx_lines]
  decide

theorem csp_of_two_le (blocks : List TextBlock) (rawText : Option (List Char))
    (h : 2 ≤ (objectEntries (extractKeyInfo blocks)).length) :
    createStructuredPrompt blocks rawText =
      preprocessForLLM blocks rawText ++ keyInfoHeader ++
        renderEntries ((objectEntries (extractKeyInfo blocks)).take 5) := by
  simp only [createStructuredPrompt]
  rw [if_pos h, List.append_assoc]

/-- Counterexample to C4 as stated: on the reachable input whose lines
read "Total: 9.99" then "12: 30", the pairs are discovered in the order
`Total`, `12`, but `Object.entries` enumerates the array-index key "12"
first, so the structured prompt is not the preprocessed text followed by
the first pairs in discovery (insertion) order. -/
theorem claim_C4_counterexample :
    createStructuredPrompt [cxB1, cxB2] none ≠
      preprocessForLLM [cxB1, cxB2] none ++ keyInfoHeader ++
        renderEntries ((extractKeyInfo [cxB1, cxB2]).take 5) := by
  have hobj : objectEntries (extractKeyInfo [cxB1, cxB2]) =
      [("12".data, "30".data), ("Total".data, "9.99".data)] := by
    rw [cx_keys]
    decide
  have hlen : 2 ≤ (objectEntries (extractKeyInfo [cxB1, cxB2])).length := by
    rw [hobj]
    decide
  rw [csp_of_two_le [cxB1, cxB2] none hlen, hobj, cx_keys]
  intro h
  exact absurd (List.append_cancel_left h) (by decide)

/-- C4 (amended): per line, the colon pattern is tried before the
trailing-price pattern and the first match wins (a line matching neither
yields no pair); a later line's value overwrites an earlier line's value
for the same key while keeping its creation position; and the structured
prompt gains a "Key information:" section exactly when at least 2 pairs
were found, listing at most the first 5 pairs in JavaScript object
enumeration order — array-index keys first in ascending numeric order,
then the remaining keys in discovery (insertion) order. -/
theorem claim_C4 :
    (∀ text k rest v : List Char, firstColonSplit text = some (k, rest) →
        colonVal rest = some v →
        detectKeyValue text = some (trimWs k, trimWs v)) ∧
    (∀ text : List Char,
        (firstColonSplit text = none ∨
          (∃ k rest, firstColonSplit text = some (k, rest) ∧ colonVal rest = none)) →
        detectKeyValue text = (priceSplit text).map fun p => (trimWs p.1, trimWs p.2)) ∧
    extractKeyInfo [kvB1, kvB2] = [("a".data, "2".data)] ∧
    (extractKeyInfo [cxB1, cxB2] =
        [("Total".data, "9.99".data), ("12".data, "30".data)] ∧
      objectEntries (extractKeyInfo [cxB1, cxB2]) =
        [("12".data, "30".data), ("Total".data, "9.99".data)]) ∧
    (∀ (blocks : List TextBlock) (rawText : Option (List Char)),
        ((objectEntries (extractKeyInfo blocks)).length < 2 →
          createStructuredPrompt blocks rawText = preprocessForLLM blocks rawText) ∧
        (2 ≤ (objectEntries (extractKeyInfo blocks)).length →
          createStructuredPrompt blocks rawText =
            preprocessForLLM blocks rawText ++ keyInfoHeader ++
              renderEntries ((objectEntries (extractKeyInfo blocks)).take 5)) ∧
        ((objectEntries (extractKeyInfo blocks)).take 5).length ≤ 5) := by
  refine ⟨?_, ?_, ?_, ⟨cx_keys, by rw [cx_keys]; decide⟩, ?_⟩
  · intro text k rest v h1 h2
    simp [detectKeyValue, h1, h2]
  · intro text h
    rcases h with h | ⟨k, rest, h1, h2⟩
    · simp [detectKeyValue, h]
    · simp [detectKeyValue, h1, h2]
  · have hlines : groupIntoLines [kvB1, kvB2] 15 =
        [{ y := 0, blocks := [kvB1] }, { y := 100, blocks := [kvB2] }] := by
      norm_num [groupIntoLines, sortByY, sortByX, List.insertionSort, List.orderedInsert,
        byY, byX, groupAux, finalizeLine, absQ, kvB1, kvB2]
    show (groupIntoLines [kvB1, kvB2] 15).foldl _ [] = _
    rw [hlines]
    decide
  · intro blocks rawText
    refine ⟨fun h => ?_, fun h => csp_of_two_le blocks rawText h, ?_⟩
    · simp only [createStructuredPrompt]
      rw [if_neg (not_le.mpr h)]
    · simp only [List.length_take]
      exact min_le_left 5 _

/-- Witness for C4: the colon pattern fires on "Total: $5.00" and the
pair is the trimmed captures. -/
theorem claim_C4_witness :
    detectKeyValue ("Total: $5.00".data) = some ("Total".data, "$5.00".data) := by
  have h := claim_C4.1 ("Total: $5.00".data) ("Total".data) (" $5.00".data)
    ("$5.00".data) (by decide) (by decide)
  rw [h]
  decide

end Highlight
